import Mathlib

/-!
Shallow embedding of `src/clib-search.c` (the package-search command of clib) and
verification of its specified behavior: the field-by-field substring matcher
(`COMPARE` / `matches`), the cache-or-fetch routine (`wiki_html_cache`), the
option callbacks, and the rendering/exit behavior of `main`.

C strings are modelled as byte sequences (`List Nat`); a null `char *` is
`Option.none`.  The external collaborators (HTTP transport, cache store, JSON
serializer, colorized printing) are modelled as data: inputs describe what the
collaborator would return, outputs record what was handed to it.
-/

namespace ClibSearch

/-- A C string (byte sequence, NUL terminator elided). -/
abbrev Str := List Nat

/-- Bytes of an ASCII Lean string literal, for writing concrete C strings. -/
def str (s : String) : Str := s.data.map Char.toNat

/-- The newline byte emitted by `printf("\n")` / the `\n` in format strings. -/
def nl : Str := [10]

/-- ASCII `tolower` on one byte, as used by `case_lower` (clibs/case). -/
def lowerByte (b : Nat) : Nat := if 65 ≤ b ∧ b ≤ 90 then b + 32 else b

/-- ASCII `toupper` on one byte (for stating the case-insensitivity property). -/
def upperByte (b : Nat) : Nat := if 97 ≤ b ∧ b ≤ 122 then b - 32 else b

/-- `case_lower`: lowercase a string in place, modelled as a pure map. -/
def case_lower (s : Str) : Str := s.map lowerByte

/-- Uppercased form of a string (for stating the case-insensitivity property). -/
def case_upper (s : Str) : Str := s.map upperByte

/-- Does `needle` occur at the very start of `hay`? (helper for `strstr`). -/
def leadsIn : Str → Str → Bool
  | [], _ => true
  | _ :: _, [] => false
  | a :: as, b :: bs => a == b && leadsIn as bs

/-- `strstr(hay, needle) != NULL`: `needle` occurs contiguously in `hay`
(the empty needle always occurs). -/
def occursIn (needle : Str) : Str → Bool
  | [] => leadsIn needle []
  | b :: bs => leadsIn needle (b :: bs) || occursIn needle bs

/-- One registry entry, fields as returned by the `wiki_package_get_*`
getters; a `none` models a null pointer coming back from the getter. -/
structure Package where
  repo : Option Str
  href : Option Str
  description : Option Str
  category : Option Str
deriving DecidableEq, Repr

/-- The part of `s` after its last `/` (byte 47); `s` itself when none. -/
def lastSegment (s : Str) : Str :=
  s.foldl (fun acc b => if b == 47 then [] else acc ++ [b]) []

/-- Modelled from the spec: `clib_package_parse_name` lives in
`common/clib-package.c`, which is not under `src/`.  Per the spec (§4.2):
given `owner/name` (or bare `name`) it extracts the short display name, a pure
string operation that cannot fail for non-null input and returns the input
unchanged when no separator is present; a null input yields null. -/
def clib_package_parse_name : Option Str → Option Str
  | none => none
  | some s => some (lastSegment s)

/-- The term loop inside `COMPARE`: after `case_lower(v)`, set `rc = 1` iff
`strstr(v, args[i])` hits for some `i` (`break` exits only this loop). -/
def anyTermIn (args : List Str) (v : Str) : Bool :=
  args.any fun t => occursIn t (case_lower v)

/-- One `COMPARE(v)` expansion acting on the running `rc`:
a null `v` jumps to `cleanup` with `rc = 0` (modelled as `none`); otherwise
`rc` is set to 1 if some term occurs in the lowercased value, and is
otherwise left as it was. -/
def compareStep (args : List Str) (v : Option Str) (rc : Bool) : Option Bool :=
  match v with
  | none => none
  | some s => some (rc || anyTermIn args s)

/-- `matches(count, args, pkg)`: true immediately for an empty query list;
otherwise run `COMPARE` over the four values in source order — derived short
name, `description`, `repo`, `href` — and return the final `rc` (0 as soon as
a value is null).  `strdup` of a present string is modelled as the identity
(allocation failure is out of scope); an absent field reaches the null test
of the macro directly. -/
def matchesFn (args : List Str) (pkg : Package) : Bool :=
  if args.isEmpty then true
  else
    match compareStep args (clib_package_parse_name pkg.repo) false with
    | none => false
    | some rc1 =>
      match compareStep args pkg.description rc1 with
      | none => false
      | some rc2 =>
        match compareStep args pkg.repo rc2 with
        | none => false
        | some rc3 =>
          match compareStep args pkg.href rc3 with
          | none => false
          | some rc4 => rc4

/-- The three option globals.  In `main`, `opt_color` and `opt_cache` are set
to 1 before parsing; `opt_json` is a zero-initialized C static, hence 0. -/
structure Opts where
  opt_color : Nat
  opt_cache : Nat
  opt_json : Nat
deriving DecidableEq, Repr

/-- `setopt_nocolor`: `opt_color = 0`. -/
def setopt_nocolor (o : Opts) : Opts := { o with opt_color := 0 }

/-- `setopt_nocache`: `opt_cache = 0`. -/
def setopt_nocache (o : Opts) : Opts := { o with opt_cache := 0 }

/-- `setopt_json`: `opt_json = 1`. -/
def setopt_json (o : Opts) : Opts := { o with opt_json := 1 }

/-- The three command-line flags registered with the commander framework. -/
inductive Flag where
  | noColor
  | skipCache
  | jsonOut
deriving DecidableEq, Repr

/-- Dispatch one recognized flag to its callback. -/
def applyFlag (o : Opts) : Flag → Opts
  | .noColor => setopt_nocolor o
  | .skipCache => setopt_nocache o
  | .jsonOut => setopt_json o

/-- Option state entering `command_parse`: `main` assigns
`opt_color = 1; opt_cache = 1`, and the static `opt_json` is 0. -/
def default_opts : Opts := ⟨1, 1, 0⟩

/-- `command_parse` as it affects the three globals: each present flag fires
its callback once, starting from the defaults. -/
def parse_flags (fs : List Flag) : Opts := fs.foldl applyFlag default_opts

/-- Foreground colors used by the tool (`console-colors` collaborator). -/
inductive Color where
  | fgNone
  | darkCyan
  | darkGray
deriving DecidableEq, Repr

/-- `opt_color ? CC_FG_DARK_CYAN : CC_FG_NONE`. -/
def hl_color (o : Opts) : Color := if o.opt_color ≠ 0 then .darkCyan else .fgNone

/-- `opt_color ? CC_FG_DARK_GRAY : CC_FG_NONE`. -/
def text_color (o : Opts) : Color := if o.opt_color ≠ 0 then .darkGray else .fgNone

/-- One element of the JSON array: the four strings handed to
`json_object_set_string` under keys `repo`, `href`, `description`,
`category`, in that insertion order. -/
structure JsonEntry where
  repo : Option Str
  href : Option Str
  description : Option Str
  category : Option Str
deriving DecidableEq, Repr

/-- `add_package_to_json`: build the object for `pkg` from its getters and
append it at the end of the accumulating array. -/
def add_package_to_json (pkg : Package) (json_list : List JsonEntry) : List JsonEntry :=
  json_list ++ [⟨pkg.repo, pkg.href, pkg.description, pkg.category⟩]

/-- One item written to stdout.  `raw` is a `printf`/`puts` chunk, `colored`
a `cc_fprintf(color, stdout, ...)` chunk, and `jsonPretty` the
pretty-serialized array handed to `puts` (serializer treated as a
collaborator; `puts` appends the trailing newline). -/
inductive OutItem where
  | raw (s : Str)
  | colored (c : Color) (s : Str)
  | jsonPretty (entries : List JsonEntry)
deriving DecidableEq, Repr

/-- `display_package`: the text-mode block for one package.  A null field
pointer here would be undefined behavior in C (`printf("%s", NULL)`); the
model renders the bytes when present (`getD []` is never exercised by the
theorems, which assume present fields as the spec does). -/
def display_package (pkg : Package) (fg_color_highlight fg_color_text : Color) :
    List OutItem :=
  [ .colored fg_color_highlight (str "  " ++ pkg.repo.getD [] ++ nl),
    .raw (str "  url: "),
    .colored fg_color_text (pkg.href.getD [] ++ nl),
    .raw (str "  desc: "),
    .colored fg_color_text (pkg.description.getD [] ++ nl),
    .raw nl ]

/-- The `while (wiki_registry_iterator_next(it))` loop of `main`: for each
package in registry order, if it matches, either append it to the JSON array
(`opt_json`) or print its text block; non-matches only hit the debug log.
Returns the stdout items printed during the loop and the final JSON array. -/
def searchLoop (args : List Str) (opts : Opts) (hl txt : Color) :
    List Package → List JsonEntry → List OutItem × List JsonEntry
  | [], acc => ([], acc)
  | p :: rest, acc =>
    if matchesFn args p then
      if opts.opt_json ≠ 0 then
        searchLoop args opts hl txt rest (add_package_to_json p acc)
      else
        let t := searchLoop args opts hl txt rest acc
        (display_package p hl txt ++ t.1, t.2)
    else searchLoop args opts hl txt rest acc

/-- `main` after `command_parse`, as a function of the parsed options, the
positional arguments, and the outcome of `wiki_registry_fetch` (`none`
models a failed fetch, leaving no records to iterate; `some ps` the parsed
registry in order).  Mirrors lines 169–229: lowercase each positional
argument, pick the color theme, fetch (result unchecked), print `"\n"`,
run the loop, in JSON mode serialize the accumulated array once and `puts`
it, and return 0. -/
def mainRun (opts : Opts) (argvTerms : List Str) (fetched : Option (List Package)) :
    List OutItem × Nat :=
  let args := argvTerms.map case_lower
  let pkgs := match fetched with | some ps => ps | none => []
  let r := searchLoop args opts (hl_color opts) (text_color opts) pkgs []
  (OutItem.raw nl :: r.1 ++ (if opts.opt_json ≠ 0 then [OutItem.jsonPretty r.2] else []),
    0)

/-- Everything `main` writes to stdout, in order. -/
def runOutput (opts : Opts) (argvTerms : List Str) (fetched : Option (List Package)) :
    List OutItem :=
  (mainRun opts argvTerms fetched).1

/-- The process exit code of `main`. -/
def runExit (opts : Opts) (argvTerms : List Str) (fetched : Option (List Package)) : Nat :=
  (mainRun opts argvTerms fetched).2

/-- `matchesFn` as called from `main`: query terms are lowercased once
(lines 169–170) before every `matches` call. -/
def pipelineMatch (argvTerms : List Str) (pkg : Package) : Bool :=
  matchesFn (argvTerms.map case_lower) pkg

/-- What the cache store and transport would answer during one
`wiki_html_cache` call: `hasSearch` is `clib_cache_has_search()`, `readData`
the result of `clib_cache_read_search()` (`none` = failed read), `fetchOk`
is `res->ok` of `http_get(CLIB_WIKI_URL)`, and `fetchBody` is `res->data`
when ok. -/
structure CacheWorld where
  hasSearch : Bool
  readData : Option Str
  fetchOk : Bool
  fetchBody : Str
deriving DecidableEq, Repr

/-- Observable outcome of `wiki_html_cache`: the returned string (`none` =
NULL), whether `http_get` was invoked, and what `clib_cache_save_search`
was handed (`none` = no write). -/
structure CacheRun where
  result : Option Str
  networkUsed : Bool
  cacheWrite : Option Str
deriving DecidableEq, Repr

/-- The fall-through tail of `wiki_html_cache`: `http_get`, return NULL if
`!res->ok`, else duplicate the body, save it to the cache, and return it
(`strdup` modelled as succeeding; allocation failure is out of scope). -/
def live_fetch (w : CacheWorld) : CacheRun :=
  if w.fetchOk then ⟨some w.fetchBody, true, some w.fetchBody⟩
  else ⟨none, true, none⟩

/-- `wiki_html_cache()`: when `clib_cache_has_search() && opt_cache`, try the
cache read and return its data when it succeeds; otherwise (and on a failed
read) fall through to the live fetch. -/
def wiki_html_cache (opt_cache : Nat) (w : CacheWorld) : CacheRun :=
  if w.hasSearch = true ∧ opt_cache ≠ 0 then
    match w.readData with
    | some data => ⟨some data, false, none⟩
    | none => live_fetch w
  else live_fetch w

/-! ## Helper lemmas -/

theorem lowerByte_upperByte (b : Nat) : lowerByte (upperByte b) = lowerByte b := by
  unfold lowerByte upperByte
  split_ifs <;> omega

theorem case_lower_case_upper (s : Str) : case_lower (case_upper s) = case_lower s := by
  induction s with
  | nil => rfl
  | cons b bs ih =>
    simp only [case_lower, case_upper, List.map_cons] at *
    rw [lowerByte_upperByte, ih]

/-- For a non-empty query list, `matches` reduces to: all four scanned values
must be non-null, and then the final `rc` is the disjunction of the four
per-field term scans in source order. -/
theorem matchesFn_eq (args : List Str) (pkg : Package) (hne : args ≠ []) :
    matchesFn args pkg =
      match clib_package_parse_name pkg.repo, pkg.description, pkg.repo, pkg.href with
      | some n, some d, some r, some h =>
        ((anyTermIn args n || anyTermIn args d) || anyTermIn args r) || anyTermIn args h
      | _, _, _, _ => false := by
  have hne' : args.isEmpty = false := by
    cases args with
    | nil => exact absurd rfl hne
    | cons a as => rfl
  unfold matchesFn
  rw [hne']
  cases hn : clib_package_parse_name pkg.repo <;>
    cases hd : pkg.description <;>
      cases hr : pkg.repo <;>
        cases hh : pkg.href <;>
          simp [compareStep]

/-- In JSON mode the loop prints nothing and appends exactly the matched
objects of the matched packages, in iteration order, to the accumulating array. -/
theorem searchLoop_json (args : List Str) (opts : Opts) (hl txt : Color)
    (hj : opts.opt_json ≠ 0) (ps : List Package) (acc : List JsonEntry) :
    searchLoop args opts hl txt ps acc =
      ([], acc ++ (ps.filter (matchesFn args)).map
        (fun p => (⟨p.repo, p.href, p.description, p.category⟩ : JsonEntry))) := by
  induction ps generalizing acc with
  | nil => simp [searchLoop]
  | cons p rest ih =>
    by_cases hmp : matchesFn args p = true
    · simp [searchLoop, hmp, hj, ih, add_package_to_json, List.filter_cons]
    · simp [searchLoop, hmp, ih, List.filter_cons]

/-- In text mode the loop leaves the JSON accumulator untouched and prints
exactly the matched display blocks of the matched packages, in iteration order. -/
theorem searchLoop_text (args : List Str) (opts : Opts) (hl txt : Color)
    (hj : opts.opt_json = 0) (ps : List Package) (acc : List JsonEntry) :
    searchLoop args opts hl txt ps acc =
      ((ps.filter (matchesFn args)).flatMap (fun p => display_package p hl txt), acc) := by
  induction ps generalizing acc with
  | nil => simp [searchLoop]
  | cons p rest ih =>
    by_cases hmp : matchesFn args p = true
    · simp [searchLoop, hmp, hj, ih, List.filter_cons]
    · simp [searchLoop, hmp, ih, List.filter_cons]

/-! ## Claim theorems -/

/-- C1: the claim says a registry fetch failure is fatal — nothing rendered,
error reported once, non-zero exit.  The code instead never checks
the outcome of `wiki_registry_fetch`: on a failed fetch it still prints the
leading newline (and, in JSON mode, the empty pretty-printed array) and
returns 0, in both output modes. -/
theorem C1_fetch_failure_ignored :
    runExit ⟨1, 1, 1⟩ [] none = 0 ∧
    runOutput ⟨1, 1, 1⟩ [] none = [OutItem.raw nl, OutItem.jsonPretty []] ∧
    runExit ⟨1, 1, 0⟩ [] none = 0 ∧
    runOutput ⟨1, 1, 0⟩ [] none = [OutItem.raw nl] := by decide

/-- C2: for any non-empty query list, if any of the four scanned values
(derived short name, description, repo, href) is null, `matches` returns 0
for the whole record — the null check fires before later fields are scanned
and discards any match an earlier field produced. -/
theorem C2_null_field_fail_closed (args : List Str) (pkg : Package)
    (hne : args ≠ [])
    (hnull : clib_package_parse_name pkg.repo = none ∨ pkg.description = none ∨
      pkg.repo = none ∨ pkg.href = none) :
    matchesFn args pkg = false := by
  rw [matchesFn_eq args pkg hne]
  cases hn : clib_package_parse_name pkg.repo <;>
    cases hd : pkg.description <;>
      cases hr : pkg.repo <;>
        cases hh : pkg.href <;>
          simp_all

/-- C2 witness: query `bar` matches the derived short name of `foo/bar`, yet
the null description of the record makes the whole record a non-match. -/
theorem C2_null_field_fail_closed_witness :
    matchesFn [str "bar"] ⟨some (str "foo/bar"), some (str "zzz"), none, none⟩ = false :=
  C2_null_field_fail_closed [str "bar"]
    ⟨some (str "foo/bar"), some (str "zzz"), none, none⟩ (by decide)
    (Or.inr (Or.inl rfl))

/-- C3 counterexample: the query term `bar` is a substring of the first
scanned field (the short name derived from `foo/bar`), yet the record does
not match, because the scan continues into the null `description` field and
the null check resets the result — there is no short-circuit at the first
matching field. -/
theorem C3_counterexample :
    anyTermIn [str "bar"] (lastSegment (str "foo/bar")) = true ∧
    matchesFn [str "bar"]
      ⟨some (str "foo/bar"), some (str "https://x/bar"), none, some (str "tools")⟩ =
      false := by decide

/-- C3 amended: the scan visits the four fields in the fixed order short
name, description, repo, href and does not short-circuit on a match; once
some term is a substring of one of the lowercased values, the result is a
match independent of the contents of the other fields provided every
scanned value is present (a null value instead forces a non-match). -/
theorem C3_match_kept_when_fields_present (args : List Str) (pkg : Package)
    (d r h : Str) (hne : args ≠ []) (hd : pkg.description = some d)
    (hr : pkg.repo = some r) (hh : pkg.href = some h)
    (hm : anyTermIn args (lastSegment r) = true ∨ anyTermIn args d = true ∨
      anyTermIn args r = true ∨ anyTermIn args h = true) :
    matchesFn args pkg = true := by
  rw [matchesFn_eq args pkg hne, hd, hr, hh]
  simp only [clib_package_parse_name]
  rcases hm with hm | hm | hm | hm <;> simp [hm]

/-- C3 amended witness: `bar` hits the derived short name and all four
values are present, so the record matches whatever the other contents. -/
theorem C3_match_kept_witness :
    matchesFn [str "bar"]
      ⟨some (str "foo/bar"), some (str "zzz"), some (str "qqq"), some (str "tools")⟩ =
      true :=
  C3_match_kept_when_fields_present [str "bar"]
    ⟨some (str "foo/bar"), some (str "zzz"), some (str "qqq"), some (str "tools")⟩
    (str "qqq") (str "foo/bar") (str "zzz") (by decide) rfl rfl rfl
    (Or.inl (by decide))

/-- C4: `matches` is true unconditionally on an empty query list; and for a
non-empty query list over a record whose four scanned values are present, it
is true exactly when some query term occurs as a substring of some one of
the four lowercased values (OR across terms and across fields, pure
substring containment). -/
theorem C4_matches_characterization :
    (∀ pkg : Package, matchesFn [] pkg = true) ∧
    (∀ (args : List Str) (pkg : Package) (d r h : Str), args ≠ [] →
      pkg.description = some d → pkg.repo = some r → pkg.href = some h →
      (matchesFn args pkg = true ↔
        ((args.any fun t => occursIn t (case_lower (lastSegment r))) = true ∨
         (args.any fun t => occursIn t (case_lower d)) = true ∨
         (args.any fun t => occursIn t (case_lower r)) = true ∨
         (args.any fun t => occursIn t (case_lower h)) = true))) := by
  constructor
  · intro pkg; rfl
  · intro args pkg d r h hne hd hr hh
    rw [matchesFn_eq args pkg hne, hd, hr, hh]
    simp only [clib_package_parse_name, anyTermIn]
    simp [or_assoc]

/-- C4 witness: the empty query matches an all-null record, and the query
`bar` matches the sample record through its derived short name. -/
theorem C4_matches_characterization_witness :
    matchesFn [] ⟨none, none, none, none⟩ = true ∧
    matchesFn [str "bar"]
      ⟨some (str "foo/bar"), some (str "https://x/bar"), some (str "A bar tool"),
        some (str "tools")⟩ = true := by
  refine ⟨C4_matches_characterization.1 ⟨none, none, none, none⟩, ?_⟩
  exact (C4_matches_characterization.2 [str "bar"]
    ⟨some (str "foo/bar"), some (str "https://x/bar"), some (str "A bar tool"),
      some (str "tools")⟩
    (str "A bar tool") (str "foo/bar") (str "https://x/bar")
    (by decide) rfl rfl rfl).mpr (Or.inl (by decide))

/-- C5: matching through the CLI pipeline (positional arguments are
lowercased once in `main`, field values are lowercased inside `COMPARE`) is
case-insensitive in the query: replacing any one query term by its
uppercased form leaves the match result unchanged, for every record. -/
theorem C5_query_case_insensitive (pre post : List Str) (t : Str) (pkg : Package) :
    pipelineMatch (pre ++ case_upper t :: post) pkg =
      pipelineMatch (pre ++ t :: post) pkg := by
  unfold pipelineMatch
  have hmap : (pre ++ case_upper t :: post).map case_lower =
      (pre ++ t :: post).map case_lower := by
    simp [case_lower_case_upper]
  rw [hmap]

/-- C6: lowercasing happens only on the copies used while matching, never on
the record: the fields of a matched record reach the output verbatim.  In JSON
mode the serialized array contains the object built from the original
(unlowercased) field strings; in text mode the colored lines of the block carry
the original repo, href and description bytes. -/
theorem C6_render_verbatim (opts : Opts) (ts : List Str) (pkgs : List Package)
    (pkg : Package) (r u d : Str)
    (hp : pkg ∈ pkgs) (hm : pipelineMatch ts pkg = true)
    (hr : pkg.repo = some r) (hu : pkg.href = some u)
    (hd : pkg.description = some d) :
    (opts.opt_json ≠ 0 →
      ∃ es, OutItem.jsonPretty es ∈ runOutput opts ts (some pkgs) ∧
        (⟨some r, some u, some d, pkg.category⟩ : JsonEntry) ∈ es) ∧
    (opts.opt_json = 0 →
      OutItem.colored (hl_color opts) (str "  " ++ r ++ nl) ∈
        runOutput opts ts (some pkgs) ∧
      OutItem.colored (text_color opts) (u ++ nl) ∈ runOutput opts ts (some pkgs) ∧
      OutItem.colored (text_color opts) (d ++ nl) ∈ runOutput opts ts (some pkgs)) := by
  have hfil : pkg ∈ pkgs.filter (matchesFn (ts.map case_lower)) :=
    List.mem_filter.mpr ⟨hp, hm⟩
  constructor
  · intro hj
    refine ⟨(pkgs.filter (matchesFn (ts.map case_lower))).map
      (fun p => (⟨p.repo, p.href, p.description, p.category⟩ : JsonEntry)), ?_, ?_⟩
    · unfold runOutput mainRun
      simp [searchLoop_json _ _ _ _ hj, hj]
    · rw [show (⟨some r, some u, some d, pkg.category⟩ : JsonEntry) =
        ⟨pkg.repo, pkg.href, pkg.description, pkg.category⟩ by rw [hr, hu, hd]]
      exact List.mem_map.mpr ⟨pkg, hfil, rfl⟩
  · intro hj
    have hout : runOutput opts ts (some pkgs) =
        OutItem.raw nl ::
          (pkgs.filter (matchesFn (ts.map case_lower))).flatMap
            (fun p => display_package p (hl_color opts) (text_color opts)) := by
      unfold runOutput mainRun
      simp [searchLoop_text _ _ _ _ hj, hj]
    have hblock : ∀ x ∈ display_package pkg (hl_color opts) (text_color opts),
        x ∈ runOutput opts ts (some pkgs) := by
      intro x hx
      rw [hout]
      exact List.mem_cons_of_mem _ (List.mem_flatMap.mpr ⟨pkg, hfil, hx⟩)
    refine ⟨?_, ?_, ?_⟩
    · exact hblock _ (by simp [display_package, hr])
    · exact hblock _ (by simp [display_package, hu])
    · exact hblock _ (by simp [display_package, hd])

/-- C6 witness: in a concrete text-mode run the repo, href
and description appear in the output with their original casing, although
matching lowercased its copies. -/
theorem C6_render_verbatim_witness :
    OutItem.colored (hl_color ⟨1, 1, 0⟩) (str "  " ++ str "Foo/Bar" ++ nl) ∈
      runOutput ⟨1, 1, 0⟩ [str "BAR"]
        (some [⟨some (str "Foo/Bar"), some (str "https://X/Bar"),
          some (str "A Bar tool"), some (str "tools")⟩]) ∧
    OutItem.colored (text_color ⟨1, 1, 0⟩) (str "https://X/Bar" ++ nl) ∈
      runOutput ⟨1, 1, 0⟩ [str "BAR"]
        (some [⟨some (str "Foo/Bar"), some (str "https://X/Bar"),
          some (str "A Bar tool"), some (str "tools")⟩]) := by
  have h := C6_render_verbatim ⟨1, 1, 0⟩ [str "BAR"]
    [⟨some (str "Foo/Bar"), some (str "https://X/Bar"), some (str "A Bar tool"),
      some (str "tools")⟩]
    ⟨some (str "Foo/Bar"), some (str "https://X/Bar"), some (str "A Bar tool"),
      some (str "tools")⟩
    (str "Foo/Bar") (str "https://X/Bar") (str "A Bar tool")
    (by decide) (by decide) rfl rfl rfl
  exact ⟨(h.2 rfl).1, (h.2 rfl).2.1⟩

/-- C7 counterexample: in JSON mode the serialized array is not the sole
stdout content — `main` prints one newline before iterating, so a run with
zero matches writes a blank line followed by `[]`, not `[]` alone. -/
theorem C7_counterexample :
    runOutput ⟨1, 1, 1⟩ [] (some []) ≠ [OutItem.jsonPretty []] ∧
    runOutput ⟨1, 1, 1⟩ [] (some []) = [OutItem.raw nl, OutItem.jsonPretty []] := by
  decide

/-- C7 amended: in JSON mode all matched records are accumulated, in
registry order, into one array of objects with string keys repo, href,
description, category; the array is serialized pretty-printed exactly once
after iteration completes and written followed by a newline, and it is the
only stdout content apart from the single leading newline that `main`
prints before iterating in every mode; with zero matches the serialized
array is the empty array. -/
theorem C7_json_single_array (opts : Opts) (ts : List Str) (pkgs : List Package)
    (hj : opts.opt_json ≠ 0) :
    runOutput opts ts (some pkgs) =
      [OutItem.raw nl,
        OutItem.jsonPretty ((pkgs.filter (pipelineMatch ts)).map
          (fun p => (⟨p.repo, p.href, p.description, p.category⟩ : JsonEntry)))] := by
  unfold runOutput mainRun
  simp [searchLoop_json _ _ _ _ hj, hj]
  rfl

/-- C7 amended witness: a JSON-mode run with no matching package writes the
leading newline and then the empty array. -/
theorem C7_json_single_array_witness :
    runOutput ⟨1, 1, 1⟩ [str "zzz"]
      (some [⟨some (str "foo/bar"), some (str "https://x/bar"),
        some (str "A bar tool"), some (str "tools")⟩]) =
      [OutItem.raw nl, OutItem.jsonPretty []] := by
  have h := C7_json_single_array ⟨1, 1, 1⟩ [str "zzz"]
    [⟨some (str "foo/bar"), some (str "https://x/bar"), some (str "A bar tool"),
      some (str "tools")⟩] (by decide)
  rw [h]
  decide

/-- C8: in text mode the output is the single leading blank line followed by
one block per matched record, in registry iteration order; each block is the
highlighted repo line, the `url:` line carrying the href, the `desc:` line
carrying the description, and a trailing blank line. -/
theorem C8_text_blocks (opts : Opts) (ts : List Str) (pkgs : List Package)
    (hj : opts.opt_json = 0) :
    runOutput opts ts (some pkgs) =
      OutItem.raw nl ::
        (pkgs.filter (pipelineMatch ts)).flatMap
          (fun p => display_package p (hl_color opts) (text_color opts)) := by
  unfold runOutput mainRun
  simp [searchLoop_text _ _ _ _ hj, hj]
  rfl

/-- C8 witness: a concrete text-mode run renders the leading blank line and
the full block of the single matched record. -/
theorem C8_text_blocks_witness :
    runOutput ⟨1, 1, 0⟩ [str "bar"]
      (some [⟨some (str "foo/bar"), some (str "https://x/bar"),
        some (str "A bar tool"), some (str "tools")⟩]) =
      [OutItem.raw nl,
        OutItem.colored .darkCyan (str "  foo/bar" ++ nl),
        OutItem.raw (str "  url: "),
        OutItem.colored .darkGray (str "https://x/bar" ++ nl),
        OutItem.raw (str "  desc: "),
        OutItem.colored .darkGray (str "A bar tool" ++ nl),
        OutItem.raw nl] := by
  have h := C8_text_blocks ⟨1, 1, 0⟩ [str "bar"]
    [⟨some (str "foo/bar"), some (str "https://x/bar"), some (str "A bar tool"),
      some (str "tools")⟩] rfl
  rw [h]
  decide

/-- C9: with `--skip-cache` (`opt_cache = 0`), `wiki_html_cache` never reads
the cache and always performs the live `http_get`, whatever the cache holds;
a successful live fetch hands its payload to `clib_cache_save_search`; and
with caching enabled, an existing readable cache entry is returned with no
network request and no cache write. -/
theorem C9_cache_bypass_semantics :
    (∀ w : CacheWorld, wiki_html_cache 0 w = live_fetch w ∧
      (wiki_html_cache 0 w).networkUsed = true) ∧
    (∀ w : CacheWorld, w.fetchOk = true →
      (wiki_html_cache 0 w).cacheWrite = some w.fetchBody) ∧
    (∀ (c : Nat) (w : CacheWorld) (d : Str), c ≠ 0 → w.hasSearch = true →
      w.readData = some d → wiki_html_cache c w = ⟨some d, false, none⟩) := by
  refine ⟨fun w => ⟨?_, ?_⟩, fun w hok => ?_, fun c w d hc hhas hread => ?_⟩
  · simp [wiki_html_cache]
  · simp [wiki_html_cache, live_fetch]
    split <;> rfl
  · simp [wiki_html_cache, live_fetch, hok]
  · simp [wiki_html_cache, hc, hhas, hread]

/-- C9 witness: a fresh cache entry plus a working transport — skipping the
cache fetches and rewrites the cache; with caching on, the entry is returned
untouched and no network request happens. -/
theorem C9_cache_bypass_semantics_witness :
    (wiki_html_cache 0 ⟨true, some (str "cached"), true, str "fresh"⟩).cacheWrite =
      some (str "fresh") ∧
    wiki_html_cache 1 ⟨true, some (str "cached"), true, str "fresh"⟩ =
      ⟨some (str "cached"), false, none⟩ :=
  ⟨C9_cache_bypass_semantics.2.1 ⟨true, some (str "cached"), true, str "fresh"⟩ rfl,
    C9_cache_bypass_semantics.2.2 1 ⟨true, some (str "cached"), true, str "fresh"⟩
      (str "cached") (by decide) rfl rfl⟩

/-- C10: with no flags the run keeps `opt_color = 1`, `opt_cache = 1` (set at
the top of `main`) and `opt_json = 0` (zero-initialized static), and each
callback of each flag changes exactly its own option. -/
theorem C10_option_defaults :
    parse_flags [] = ⟨1, 1, 0⟩ ∧
    (∀ o : Opts, applyFlag o .noColor = ⟨0, o.opt_cache, o.opt_json⟩) ∧
    (∀ o : Opts, applyFlag o .skipCache = ⟨o.opt_color, 0, o.opt_json⟩) ∧
    (∀ o : Opts, applyFlag o .jsonOut = ⟨o.opt_color, o.opt_cache, 1⟩) :=
  ⟨rfl, fun _ => rfl, fun _ => rfl, fun _ => rfl⟩

end ClibSearch
